import Mathlib

/-!
Shallow embedding of the identifo storage layer.

The definitions below are translated from the Go sources:
* the MongoDB-backed `UserStorage` (its methods `UserByID`, `UserByEmail`,
  `UserByPhone`, `UserByFederatedID`, `UserExists`, `UserByNamePassword`,
  `AddNewUser`, `AddUserByNameAndPassword`, `UpdateUser`, `FetchUsers`,
  `ImportJSON`),
* the admin HTTP handler `Router.UpdateUser`,
* the storage `Composer` (`NewComposer`, `Compose`),
* the demo host `main` that launches the plugin subprocess.

External collaborators (the bcrypt library, the `model` package's regular
expressions, the `jwt` package's algorithm map, the JWT token-service
constructor) are not part of the sources; the embedding takes them as
explicit function parameters so that every theorem quantifies over them.
The MongoDB driver's query semantics are embedded as follows: the
collection is a list of documents in insertion order, `FindOne` is
`List.find?`, a unique index is a scan of the existing documents, an
anchored case-insensitive regular expression on a literal name is
case-insensitive string equality, and an unanchored case-insensitive
regular expression built from a literal filter string is case-insensitive
substring containment.
-/

/-- One character of a Go hex string (`encoding/hex` accepts 0-9, a-f, A-F). -/
def hexDigit (c : Char) : Bool :=
  c.isDigit || ('a' ≤ c && c ≤ 'f') || ('A' ≤ c && c ≤ 'F')

/-- `primitive.ObjectIDFromHex` succeeds exactly on 24-character hex strings. -/
def isValidObjectID (s : String) : Bool :=
  s.length == 24 && s.toList.all hexDigit

/-- `primitive.NewObjectID`: a fresh 12-byte id, rendered as 24 hex characters.
The embedding draws fresh ids from a counter, hex-encoded and zero-padded. -/
def freshObjectID (n : Nat) : String :=
  let ds := Nat.toDigits 16 n
  String.mk (List.replicate (24 - ds.length) '0' ++ ds)

/-- `strings.ToLower` (ASCII range, which covers the usernames and
emails these claims quantify over), defined over the character list so
that concrete instances evaluate by kernel reduction. -/
def lowerChar (c : Char) : Char :=
  if 'A' ≤ c && c ≤ 'Z' then Char.ofNat (c.toNat + 32) else c

/-- Lowercasing of a whole string. -/
def lowerStr (s : String) : String :=
  String.mk (s.data.map lowerChar)

/-- Boolean infix test on character lists. -/
def chInfix (nd : List Char) : List Char → Bool
  | [] => nd.isEmpty
  | c :: t => nd.isPrefixOf (c :: t) || chInfix nd t

/-- Case-insensitive substring containment: the embedding of an unanchored
case-insensitive MongoDB regex whose pattern is the literal string
`needle`, applied to `hay`. -/
def containsCI (hay needle : String) : Bool :=
  chInfix (lowerStr needle).toList (lowerStr hay).toList

/-- Case-insensitive exact match: the embedding of the anchored
case-insensitive MongoDB regex `^name$` (with regex metacharacters
escaped) applied to a username. -/
def matchesCI (name username : String) : Bool :=
  lowerStr username == lowerStr name

/-- `model.TFAInfo`: two-factor-authentication flag and secret. -/
structure TFAInfo where
  isEnabled : Bool
  secret : String
deriving Repr, DecidableEq

/-- The mongo backend's `userData` document. -/
structure UserData where
  id : String
  username : String
  email : String
  phone : String
  pswd : String
  active : Bool
  accessRole : String
  anonymous : Bool
  federatedIDs : List String
  numOfLogins : Nat
  latestLoginTime : Int
  tfaInfo : TFAInfo
deriving Repr, DecidableEq

/-- The zero value of the Go `userData` struct. -/
def blankUser : UserData :=
  { id := "", username := "", email := "", phone := "", pswd := ""
    active := false, accessRole := "", anonymous := false
    federatedIDs := [], numOfLogins := 0, latestLoginTime := 0
    tfaInfo := { isEnabled := false, secret := "" } }

/-- A value of the `model.User` interface: either the mongo backend's
concrete `*User`, or a user value of some other backend's concrete type
(on which the `.(*User)` type assertion fails). -/
inductive ModelUser where
  | mongo (u : UserData)
  | other (tag : String)
deriving Repr, DecidableEq

/-- The error values observable from the embedded storage methods.
`errNoDocuments` is the MongoDB driver's no-document error, propagated
unchanged by methods that do not reinterpret it; `errInvalidObjectID` is
the error of `primitive.ObjectIDFromHex`; the others are the `model`
package's error values. -/
inductive StorageErr where
  | errUserNotFound
  | errorNotFound
  | errorWrongDataFormat
  | errorUserExists
  | errorNotImplemented
  | errNoDocuments
  | errInvalidObjectID
deriving Repr, DecidableEq

/-- The mongo `UserStorage`: its collection of user documents in insertion
order, plus the supply for fresh object ids. -/
structure UserStorage where
  users : List UserData
  nextID : Nat
deriving Repr, DecidableEq

namespace UserStorage

/-- An empty user storage. -/
def empty : UserStorage := { users := [], nextID := 0 }

/-- `UserByID`: parse the hex id, `FindOne` by `_id`.  The password hash is
NOT cleared on this path in the source. -/
def UserByID (us : UserStorage) (id : String) : Except StorageErr UserData :=
  if isValidObjectID id then
    match us.users.find? (fun u => u.id == id) with
    | some u => .ok u
    | none => .error .errNoDocuments
  else .error .errInvalidObjectID

/-- `UserByEmail`: reject the empty email, lowercase the argument,
`FindOne` by `email`.  The password hash is NOT cleared on this path in
the source. -/
def UserByEmail (us : UserStorage) (email : String) : Except StorageErr UserData :=
  if email == "" then .error .errorWrongDataFormat
  else
    match us.users.find? (fun u => u.email == lowerStr email) with
    | some u => .ok u
    | none => .error .errNoDocuments

/-- `UserByPhone`: `FindOne` by `phone`, clear the password hash. -/
def UserByPhone (us : UserStorage) (phone : String) : Except StorageErr UserData :=
  match us.users.find? (fun u => u.phone == phone) with
  | some u => .ok { u with pswd := "" }
  | none => .error .errNoDocuments

/-- `UserByFederatedID`: `FindOne` by membership of `provider ++ ":" ++ id`
in `federated_ids`; a decode failure becomes `model.ErrUserNotFound`;
clear the password hash. -/
def UserByFederatedID (us : UserStorage) (provider id : String) :
    Except StorageErr UserData :=
  let sid := provider ++ ":" ++ id
  match us.users.find? (fun u => u.federatedIDs.contains sid) with
  | some u => .ok { u with pswd := "" }
  | none => .error .errUserNotFound

/-- `UserExists`: anchored case-insensitive regex match on `username`. -/
def UserExists (us : UserStorage) (name : String) : Bool :=
  (us.users.find? (fun u => matchesCI name u.username)).isSome

/-- `UserByNamePassword`: anchored case-insensitive regex match on
`username` (decode failure becomes `model.ErrUserNotFound`), then
`bcrypt.CompareHashAndPassword` (embedded as the parameter `hOK`, giving
`true` when the comparison returns nil); a comparison failure also
becomes `model.ErrUserNotFound`; on success the password hash is
cleared. -/
def UserByNamePassword (hOK : String → String → Bool) (us : UserStorage)
    (name password : String) : Except StorageErr UserData :=
  match us.users.find? (fun u => matchesCI name u.username) with
  | none => .error .errUserNotFound
  | some u =>
    if hOK u.pswd password then .ok { u with pswd := "" }
    else .error .errUserNotFound

/-- The collection's three unique indexes: `username` (unique, with
case-insensitive collation), `email` (unique, sparse), `phone`
(unique, sparse).  A sparse index skips documents whose field is
absent, which the Go struct encodes for empty strings. -/
def duplicates (v u : UserData) : Bool :=
  lowerStr v.username == lowerStr u.username
    || (u.email != "" && v.email == u.email)
    || (u.phone != "" && v.phone == u.phone)

/-- The mutations `AddNewUser` performs on the supplied record before
inserting it: lowercase the email (`usr.SetEmail(strings.ToLower(...))`),
assign a fresh object id, replace the password field with the bcrypt
hash of a non-empty password (embedded as the parameter `hashFn`), zero
the login counter. -/
def addedRecord (hashFn : String → String) (us : UserStorage) (u0 : UserData)
    (password : String) : UserData :=
  { u0 with
    email := lowerStr u0.email
    id := freshObjectID us.nextID
    pswd := if password.length > 0 then hashFn password else u0.pswd
    numOfLogins := 0 }

/-- `AddNewUser`: lowercase the email on the interface value, type-assert
to the mongo `*User` (else `model.ErrorWrongDataFormat`), apply the
`addedRecord` mutations, `InsertOne` (a duplicate-key error becomes
`model.ErrorUserExists`). -/
def AddNewUser (hashFn : String → String) (us : UserStorage)
    (usr : ModelUser) (password : String) :
    Except StorageErr (UserData × UserStorage) :=
  match usr with
  | .other _ => .error .errorWrongDataFormat
  | .mongo u0 =>
    let u2 := addedRecord hashFn us u0 password
    if us.users.any (fun v => duplicates v u2) then .error .errorUserExists
    else .ok (u2, { users := us.users ++ [u2], nextID := us.nextID + 1 })

/-- `AddUserByNameAndPassword`: build a fresh active record with the given
username, role and anonymity, copy the username into the email (resp.
phone) field when `model.EmailRegexp` (resp. `model.PhoneRegexp`) matches
it (the two regular expressions live outside the sources and are taken
as the parameters `emailRe` and `phoneRe`; the record construction is
split out as `builtRecord`), then `AddNewUser`. -/
def builtRecord (emailRe phoneRe : String → Bool)
    (username role : String) (isAnonymous : Bool) : UserData :=
  let u := { blankUser with
             active := true, username := username
             accessRole := role, anonymous := isAnonymous }
  let u := if emailRe username then { u with email := username } else u
  if phoneRe username then { u with phone := username } else u

def AddUserByNameAndPassword (hashFn : String → String)
    (emailRe phoneRe : String → Bool) (us : UserStorage)
    (username password role : String) (isAnonymous : Bool) :
    Except StorageErr (UserData × UserStorage) :=
  AddNewUser hashFn us (.mongo (builtRecord emailRe phoneRe username role isAnonymous)) password

/-- `UpdateUser`: parse the hex id (failure propagates the parse error),
lowercase the email on the interface value, type-assert to the mongo
`*User` (else `model.ErrorWrongDataFormat`), overwrite the record's id
with the id argument, `FindOneAndUpdate` by `_id` with a `$set` of the
whole document, returning the updated document; a missing document
propagates the driver's no-document error unchanged. -/
def UpdateUser (us : UserStorage) (userID : String) (newUser : ModelUser) :
    Except StorageErr (UserData × UserStorage) :=
  if isValidObjectID userID then
    match newUser with
    | .other _ => .error .errorWrongDataFormat
    | .mongo r0 =>
      let r1 := { r0 with email := lowerStr r0.email, id := userID }
      if us.users.any (fun v => v.id == userID) then
        .ok (r1, { us with
                   users := us.users.map (fun v => if v.id == userID then r1 else v) })
      else .error .errNoDocuments
  else .error .errInvalidObjectID

/-- The sort relation of `FetchUsers`: ascending by `username`. -/
def byUsername (a b : UserData) : Prop := a.username ≤ b.username

instance : DecidableRel byUsername := fun a b =>
  inferInstanceAs (Decidable (a.username ≤ b.username))

instance : IsTotal UserData byUsername :=
  ⟨fun a b => le_total a.username b.username⟩

instance : IsTrans UserData byUsername :=
  ⟨fun _ _ _ h1 h2 => le_trans h1 h2⟩

/-- `FetchUsers`: count the documents matching the unanchored
case-insensitive regex on `username` over the whole collection, then
find the matching documents sorted ascending by `username` with the
given skip and limit (the driver treats limit 0 as no limit). -/
def FetchUsers (us : UserStorage) (filterString : String) (skip limit : Nat) :
    List UserData × Nat :=
  let matched := us.users.filter (fun u => containsCI u.username filterString)
  let total := matched.length
  let sorted := List.insertionSort byUsername matched
  let afterSkip := sorted.drop skip
  let page := if limit == 0 then afterSkip else afterSkip.take limit
  (page, total)

/-- `ImportJSON`, after `json.Unmarshal` (the decoder is the standard
library's; the embedding starts from the decoded record list): for each
record in order, remember the inbound `pswd` field, clear it on the
record, and pass the remembered value to `AddNewUser` as the password;
the first failing `AddNewUser` aborts the whole import with its error. -/
def ImportRecords (hashFn : String → String) :
    UserStorage → List UserData → Except StorageErr UserStorage
  | us, [] => .ok us
  | us, u :: rest =>
    match AddNewUser hashFn us (.mongo { u with pswd := "" }) u.pswd with
    | .error e => .error e
    | .ok (_, us') => ImportRecords hashFn us' rest

end UserStorage

/-- The admin handler `Router.UpdateUser`, after JSON decoding of the
inbound user: fetch the existing user by id (an error aborts the
handler), and when the inbound TFA enabled flag equals the stored one,
overwrite the inbound `TFAInfo` with the stored enabled flag and stored
secret; then call the storage `UpdateUser` with the route id and the
(possibly adjusted) inbound user. -/
def adminUpdateUser (us : UserStorage) (userID : String) (inbound : UserData) :
    Except StorageErr (UserData × UserStorage) :=
  match us.UserByID userID with
  | .error e => .error e
  | .ok existing =>
    let u :=
      if inbound.tfaInfo.isEnabled == existing.tfaInfo.isEnabled then
        { inbound with
          tfaInfo := { isEnabled := existing.tfaInfo.isEnabled
                       secret := existing.tfaInfo.secret } }
      else inbound
    us.UpdateUser userID (.mongo u)

/-!
Embedding of `server/composer.go`.

A constructor slot of the `Composer` is Go's `func() (Storage, error)`
function value, which may be nil.  The embedding represents a non-nil
constructor by `some r` where `r : Except String α` is the result of
invoking it, and the nil function value by `none`.  Invoking a nil Go
function value is a runtime panic, represented by the `panicked` outcome
of `Compose`.  Error values produced with `fmt.Errorf` are represented by
their message strings.
-/

/-- `PartialDatabaseComposer`: one optional constructor per non-plugin
storage category. -/
structure PartialComposer (A U T V : Type) where
  appStorageComposer : Option (Except String A)
  userStorageComposer : Option (Except String U)
  tokenStorageComposer : Option (Except String T)
  verificationCodeStorageComposer : Option (Except String V)

/-- `server.Composer`: the configured signing-algorithm name and the four
resolved constructor slots (Go nil function values are `none`). -/
structure Composer (A U T V : Type) where
  algorithm : String
  newAppStorage : Option (Except String A)
  newUserStorage : Option (Except String U)
  newTokenStorage : Option (Except String T)
  newVerificationCodeStorage : Option (Except String V)

/-- The body of `NewComposer`'s loop over the Partial Composer list: for
each category, overwrite the slot when the Partial Composer's accessor
for that category is non-nil, keep the previous slot otherwise. -/
def composerMergeStep {A U T V : Type} (c : Composer A U T V)
    (pc : PartialComposer A U T V) : Composer A U T V :=
  { c with
    newAppStorage :=
      if pc.appStorageComposer.isSome then pc.appStorageComposer
      else c.newAppStorage
    newUserStorage :=
      if pc.userStorageComposer.isSome then pc.userStorageComposer
      else c.newUserStorage
    newTokenStorage :=
      if pc.tokenStorageComposer.isSome then pc.tokenStorageComposer
      else c.newTokenStorage
    newVerificationCodeStorage :=
      if pc.verificationCodeStorageComposer.isSome then
        pc.verificationCodeStorageComposer
      else c.newVerificationCodeStorage }

/-- `server.NewComposer` (with no functional options): start from nil
constructor slots and walk the Partial Composer list in order, running
`composerMergeStep` on each entry. -/
def NewComposer (A U T V : Type) (algorithm : String)
    (pcs : List (PartialComposer A U T V)) : Composer A U T V :=
  pcs.foldl composerMergeStep
    { algorithm := algorithm
      newAppStorage := none
      newUserStorage := none
      newTokenStorage := none
      newVerificationCodeStorage := none }

/-- The observable outcome of `Composer.Compose`: a runtime panic from
invoking a nil constructor function value, an error return (on which all
five other results are nil), or the five composed services. -/
inductive ComposeResult (A U T V TS : Type) where
  | panicked
  | failed (e : String)
  | composed (app : A) (user : U) (token : T) (vcs : V) (ts : TS)
deriving DecidableEq, Repr

/-- Whether a `ComposeResult` is an error return. -/
def ComposeResult.isFailed {A U T V TS : Type} :
    ComposeResult A U T V TS → Bool
  | .failed _ => true
  | _ => false

/-- `Composer.Compose`: invoke the four constructor slots in source order
(app, user, token, verification code), returning the first error
immediately with nothing else; invoking a nil slot panics.  Then look
the configured algorithm name up in `jwt.StrToTokenSignAlg` (a map in
the `jwt` package outside the sources, taken as the parameter
`strToAlg`), failing with the `Unknown token service algorithm` error
when absent, and finally build the token service
(`jwtService.NewJWTokenService`, outside the sources, taken as the
parameter `newTS`), propagating its error. -/
def Compose (A U T V Alg TS : Type) (strToAlg : String → Option Alg)
    (newTS : Alg → T → A → U → Except String TS) (c : Composer A U T V) :
    ComposeResult A U T V TS :=
  match c.newAppStorage with
  | none => .panicked
  | some (.error e) => .failed e
  | some (.ok app) =>
    match c.newUserStorage with
    | none => .panicked
    | some (.error e) => .failed e
    | some (.ok user) =>
      match c.newTokenStorage with
      | none => .panicked
      | some (.error e) => .failed e
      | some (.ok token) =>
        match c.newVerificationCodeStorage with
        | none => .panicked
        | some (.error e) => .failed e
        | some (.ok vcs) =>
          match strToAlg c.algorithm with
          | none => .failed ("Unknown token service algorithm " ++ c.algorithm)
          | some alg =>
            match newTS alg token app user with
            | .error e => .failed e
            | .ok ts => .composed app user token vcs ts

/-- The last provided (non-nil) constructor of a list of optional
constructors: the specification's resolution rule for a category. -/
def lastProvided {β : Type} (l : List (Option β)) : Option β :=
  (l.filterMap id).getLast?

/-!
Embedding of the demo host `main` (`cmd/demo/main.go`).

The host launches the plugin subprocess via `plugin.NewClient` and
registers `defer client.Kill()`.  Go's `defer` runs only when the
surrounding function returns (normally or by panic); `os.Exit` and
`log.Fatal` (which calls `os.Exit(1)`) terminate the process immediately
WITHOUT running deferred calls.  The embedding is a small statement
language with exactly these semantics, and `demoMain` is the statement
list of the source's `main`, indexed by whether `client.Client()` and
`Dispense("user_storage")` fail.
-/

/-- Deferred cleanup actions registered by the demo host. -/
inductive HostAction where
  | killPlugin
  | closeServer
deriving DecidableEq, Repr

/-- Host statements: launch the plugin subprocess, register a deferred
action, or terminate the process via `os.Exit` / `log.Fatal`. -/
inductive HostStmt where
  | launchPlugin
  | deferAction (a : HostAction)
  | exitProcess (code : Nat)
deriving DecidableEq, Repr

/-- The observable host trace: whether the subprocess was launched, the
cleanup actions actually performed, and the exit code if the process
terminated through `os.Exit`. -/
structure HostTrace where
  launched : Bool
  performed : List HostAction
  exitedWith : Option Nat
deriving DecidableEq, Repr

/-- Run the host statements with a deferred-action stack (newest first).
Reaching the end of the list is a normal return, which runs the deferred
actions in last-in-first-out order; `exitProcess` terminates immediately
and the deferred actions are NOT run (Go `os.Exit` semantics). -/
def runHost : List HostStmt → List HostAction → HostTrace → HostTrace
  | [], defers, t =>
    { t with performed := t.performed ++ defers, exitedWith := none }
  | s :: rest, defers, t =>
    match s with
    | .launchPlugin => runHost rest defers { t with launched := true }
    | .deferAction a => runHost rest (a :: defers) t
    | .exitProcess code => { t with exitedWith := some code }

/-- The statement list of the demo host's `main`: launch the plugin and
defer `client.Kill()`; if `client.Client()` fails, print and
`os.Exit(1)`; if `Dispense("user_storage")` fails, print and
`os.Exit(1)`; otherwise defer `s.Close()` and end in
`log.Fatal(http.ListenAndServe(...))` — `ListenAndServe` only ever
returns a non-nil error, so this path always reaches `log.Fatal`, which
is `os.Exit(1)`. -/
def demoMain (clientErr dispenseErr : Bool) : List HostStmt :=
  [.launchPlugin, .deferAction .killPlugin] ++
    (if clientErr then [.exitProcess 1]
     else if dispenseErr then [.exitProcess 1]
     else [.deferAction .closeServer, .exitProcess 1])

/-- The trace of one execution of the demo host's `main`. -/
def demoMainTrace (clientErr dispenseErr : Bool) : HostTrace :=
  runHost (demoMain clientErr dispenseErr) []
    { launched := false, performed := [], exitedWith := none }

/-!
Theorems.
-/

theorem foldl_override {β : Type} (l : List (Option β)) (acc : Option β) :
    l.foldl (fun a o => if o.isSome then o else a) acc = (lastProvided l).or acc := by
  induction l using List.reverseRecOn with
  | nil => simp [lastProvided]
  | append_singleton l o ih =>
    cases o with
    | none => simp [lastProvided, List.foldl_append, ih, List.filterMap_append]
    | some x =>
      simp [lastProvided, List.foldl_append, ih, List.filterMap_append,
        List.getLast?_concat]

theorem composer_foldl_fields {A U T V : Type}
    (pcs : List (PartialComposer A U T V)) (c0 : Composer A U T V) :
    (pcs.foldl composerMergeStep c0).newAppStorage
        = (pcs.map PartialComposer.appStorageComposer).foldl
            (fun a o => if o.isSome then o else a) c0.newAppStorage
      ∧ (pcs.foldl composerMergeStep c0).newUserStorage
        = (pcs.map PartialComposer.userStorageComposer).foldl
            (fun a o => if o.isSome then o else a) c0.newUserStorage
      ∧ (pcs.foldl composerMergeStep c0).newTokenStorage
        = (pcs.map PartialComposer.tokenStorageComposer).foldl
            (fun a o => if o.isSome then o else a) c0.newTokenStorage
      ∧ (pcs.foldl composerMergeStep c0).newVerificationCodeStorage
        = (pcs.map PartialComposer.verificationCodeStorageComposer).foldl
            (fun a o => if o.isSome then o else a) c0.newVerificationCodeStorage := by
  induction pcs generalizing c0 with
  | nil => exact ⟨rfl, rfl, rfl, rfl⟩
  | cons pc t ih =>
    simpa [composerMergeStep] using ih (composerMergeStep c0 pc)

/-- C2.  For every ordered list of Partial Composers and each of the four
non-plugin storage categories, `NewComposer` resolves the category to the
last non-absent constructor in list order (a nil accessor leaves the
previously resolved constructor in place). -/
theorem newComposer_resolves_last_provided (A U T V : Type) (alg : String)
    (pcs : List (PartialComposer A U T V)) :
    (NewComposer A U T V alg pcs).newAppStorage
        = lastProvided (pcs.map PartialComposer.appStorageComposer)
      ∧ (NewComposer A U T V alg pcs).newUserStorage
        = lastProvided (pcs.map PartialComposer.userStorageComposer)
      ∧ (NewComposer A U T V alg pcs).newTokenStorage
        = lastProvided (pcs.map PartialComposer.tokenStorageComposer)
      ∧ (NewComposer A U T V alg pcs).newVerificationCodeStorage
        = lastProvided (pcs.map PartialComposer.verificationCodeStorageComposer) := by
  obtain ⟨h1, h2, h3, h4⟩ := composer_foldl_fields pcs
    { algorithm := alg
      newAppStorage := none
      newUserStorage := none
      newTokenStorage := none
      newVerificationCodeStorage := none }
  refine ⟨?_, ?_, ?_, ?_⟩ <;>
    simp [NewComposer, h1, h2, h3, h4, foldl_override, Option.or_none]

/-- A composer whose app-storage category resolved to no constructor at
all (a nil slot), while every other input is healthy. -/
def composerMissingApp : Composer Unit Unit Unit Unit :=
  { algorithm := "ES256"
    newAppStorage := none
    newUserStorage := some (.ok ())
    newTokenStorage := some (.ok ())
    newVerificationCodeStorage := some (.ok ()) }

/-- C3, counterexample.  When a category resolves to no constructor at
all, `Compose` does not fail with a ConfigError (or any returned error):
it invokes the nil constructor function value, which is a runtime panic. -/
theorem compose_nil_slot_panics_not_configError :
    Compose Unit Unit Unit Unit Unit Unit
        (fun s => if s == "ES256" then some () else none)
        (fun _ _ _ _ => .ok ()) composerMissingApp = .panicked
      ∧ (Compose Unit Unit Unit Unit Unit Unit
          (fun s => if s == "ES256" then some () else none)
          (fun _ _ _ _ => .ok ()) composerMissingApp).isFailed = false :=
  ⟨rfl, rfl⟩

/-- C3, amended.  `Compose` invokes the four resolved constructors in
source order and on the first constructor error returns exactly that
error, with no partially constructed storage exposed (the `failed`
outcome carries nothing else); when a category resolves to no
constructor at all it panics on the nil function value instead of
returning a ConfigError; the ConfigError return occurs when the
configured signing-algorithm name is not in the known algorithm
mapping. -/
theorem compose_first_error_nil_panic_unknown_alg (A U T V Alg TS : Type)
    (strToAlg : String → Option Alg) (newTS : Alg → T → A → U → Except String TS)
    (c : Composer A U T V) :
    (∀ e, c.newAppStorage = some (.error e) →
        Compose A U T V Alg TS strToAlg newTS c = .failed e)
      ∧ (∀ app e, c.newAppStorage = some (.ok app) →
          c.newUserStorage = some (.error e) →
          Compose A U T V Alg TS strToAlg newTS c = .failed e)
      ∧ (∀ app user e, c.newAppStorage = some (.ok app) →
          c.newUserStorage = some (.ok user) →
          c.newTokenStorage = some (.error e) →
          Compose A U T V Alg TS strToAlg newTS c = .failed e)
      ∧ (∀ app user token e, c.newAppStorage = some (.ok app) →
          c.newUserStorage = some (.ok user) →
          c.newTokenStorage = some (.ok token) →
          c.newVerificationCodeStorage = some (.error e) →
          Compose A U T V Alg TS strToAlg newTS c = .failed e)
      ∧ (c.newAppStorage = none →
          Compose A U T V Alg TS strToAlg newTS c = .panicked)
      ∧ (∀ app, c.newAppStorage = some (.ok app) → c.newUserStorage = none →
          Compose A U T V Alg TS strToAlg newTS c = .panicked)
      ∧ (∀ app user, c.newAppStorage = some (.ok app) →
          c.newUserStorage = some (.ok user) → c.newTokenStorage = none →
          Compose A U T V Alg TS strToAlg newTS c = .panicked)
      ∧ (∀ app user token, c.newAppStorage = some (.ok app) →
          c.newUserStorage = some (.ok user) →
          c.newTokenStorage = some (.ok token) →
          c.newVerificationCodeStorage = none →
          Compose A U T V Alg TS strToAlg newTS c = .panicked)
      ∧ (∀ app user token vcs, c.newAppStorage = some (.ok app) →
          c.newUserStorage = some (.ok user) →
          c.newTokenStorage = some (.ok token) →
          c.newVerificationCodeStorage = some (.ok vcs) →
          strToAlg c.algorithm = none →
          Compose A U T V Alg TS strToAlg newTS c
            = .failed ("Unknown token service algorithm " ++ c.algorithm)) := by
  refine ⟨?_, ?_, ?_, ?_, ?_, ?_, ?_, ?_, ?_⟩ <;>
    intros <;> simp only [Compose, *]

/-- A composer whose first (app) constructor fails while the later user
constructor fails with a different error: the first error must win. -/
def composerFirstError : Composer Unit Unit Unit Unit :=
  { algorithm := "ES256"
    newAppStorage := some (.error "boom")
    newUserStorage := some (.error "later")
    newTokenStorage := some (.ok ())
    newVerificationCodeStorage := some (.ok ()) }

/-- C3, witness for the amended theorem. -/
theorem compose_first_error_witness :
    composerFirstError.newAppStorage = some (.error "boom")
      ∧ Compose Unit Unit Unit Unit Unit Unit (fun _ => some ())
          (fun _ _ _ _ => .ok ()) composerFirstError = .failed "boom" :=
  ⟨rfl,
    (compose_first_error_nil_panic_unknown_alg Unit Unit Unit Unit Unit Unit
        (fun _ => some ()) (fun _ _ _ _ => .ok ()) composerFirstError).1
      "boom" rfl⟩

/-- C8.  On every execution path of the demo host's `main`, the plugin
subprocess is launched and the process terminates through `os.Exit`
(directly on the two startup-failure paths, via `log.Fatal` after
`http.ListenAndServe` returns on the remaining path), so the deferred
`client.Kill()` — and the deferred server close — never run: the host
never terminates the subprocess it launched, on startup failure or
otherwise. -/
theorem demoMain_never_kills_plugin (clientErr dispenseErr : Bool) :
    (demoMainTrace clientErr dispenseErr).launched = true
      ∧ (demoMainTrace clientErr dispenseErr).performed = []
      ∧ (demoMainTrace clientErr dispenseErr).exitedWith = some 1 := by
  cases clientErr <;> cases dispenseErr <;> exact ⟨rfl, rfl, rfl⟩

/-- A stand-in for the bcrypt hash used to build concrete stores: the
real bcrypt is an external library, so concrete instances pick an
arbitrary injective-looking stand-in. -/
def demoHash (p : String) : String := "$2a$10$" ++ p

/-- The stand-in for `bcrypt.CompareHashAndPassword` returning nil,
matching `demoHash`. -/
def demoHashOK (h p : String) : Bool := h == demoHash p

/-- A record registered through `AddNewUser`, with a non-empty password:
the stored document carries the bcrypt hash. -/
def c1seed : UserData :=
  { blankUser with username := "bob", email := "Bob@Example.Com"
                   phone := "+61999", active := true }

/-- The storage state after registering `c1seed` with password
`"secret"` on an empty store. -/
def c1store : UserStorage :=
  match UserStorage.AddNewUser demoHash UserStorage.empty (.mongo c1seed) "secret" with
  | .ok (_, us) => us
  | .error _ => UserStorage.empty

/-- C1, counterexample.  `UserByID` and `UserByEmail` return the stored
user with the PasswordHash field intact, not cleared: on a store holding
one user registered with password `"secret"`, both retrievals return the
bcrypt hash. -/
theorem userByID_email_return_password_hash :
    (UserStorage.UserByID c1store "000000000000000000000000").map UserData.pswd
        = .ok "$2a$10$secret"
      ∧ (UserStorage.UserByEmail c1store "bob@example.com").map UserData.pswd
        = .ok "$2a$10$secret"
      ∧ ("$2a$10$secret" : String) ≠ "" := by
  refine ⟨rfl, rfl, by decide⟩

/-- C1, amended.  Of the five retrieval operations, `UserByPhone`,
`UserByFederatedID` and `UserByNamePassword` return the User with the
PasswordHash field cleared; `UserByID` and `UserByEmail` return the
stored record with the PasswordHash intact (sanitization of those
results is left to the HTTP layer). -/
theorem retrievals_clearing_password_hash (hOK : String → String → Bool)
    (us : UserStorage) (phone provider fid name pw : String) (u : UserData) :
    (us.UserByPhone phone = .ok u → u.pswd = "")
      ∧ (us.UserByFederatedID provider fid = .ok u → u.pswd = "")
      ∧ (us.UserByNamePassword hOK name pw = .ok u → u.pswd = "") := by
  refine ⟨?_, ?_, ?_⟩ <;> intro h
  · unfold UserStorage.UserByPhone at h
    split at h
    · cases h; rfl
    · exact (Except.noConfusion h)
  · simp only [UserStorage.UserByFederatedID] at h
    split at h
    · cases h; rfl
    · exact (Except.noConfusion h)
  · unfold UserStorage.UserByNamePassword at h
    split at h
    · exact (Except.noConfusion h)
    · split at h
      · cases h; rfl
      · exact (Except.noConfusion h)

/-- The cleared result of `UserByPhone` on `c1store`. -/
def c1phoneOut : UserData :=
  match UserStorage.UserByPhone c1store "+61999" with
  | .ok u => u
  | .error _ => blankUser

/-- C1, witness for the amended theorem. -/
theorem retrievals_clearing_witness :
    UserStorage.UserByPhone c1store "+61999" = .ok c1phoneOut
      ∧ c1phoneOut.pswd = "" :=
  ⟨rfl,
    (retrievals_clearing_password_hash demoHashOK c1store "+61999" "g" "x" "n" "p"
        c1phoneOut).1 rfl⟩

theorem str_length_pos {s : String} (h : s ≠ "") : 0 < s.length := by
  cases s with
  | mk data =>
    cases data with
    | nil => exact absurd rfl h
    | cons c t => simp [String.length]


theorem AddNewUser_ok {hashFn : String → String} {us : UserStorage}
    {u0 : UserData} {pw : String} {u' : UserData} {us' : UserStorage}
    (h : UserStorage.AddNewUser hashFn us (.mongo u0) pw = .ok (u', us')) :
    us.users.any
        (fun v => UserStorage.duplicates v (UserStorage.addedRecord hashFn us u0 pw)) = false
      ∧ u' = UserStorage.addedRecord hashFn us u0 pw
      ∧ us' = { users := us.users ++ [UserStorage.addedRecord hashFn us u0 pw]
                nextID := us.nextID + 1 } := by
  simp only [UserStorage.AddNewUser] at h
  split at h
  next hdup => exact Except.noConfusion h
  next hdup =>
    injection h with h
    injection h with h1 h2
    exact ⟨Bool.not_eq_true _ ▸ hdup, h1.symm, h2.symm⟩

theorem any_eq_false_mem {α : Type} {p : α → Bool} {l : List α}
    (h : l.any p = false) {x : α} (hx : x ∈ l) : p x = false := by
  rcases Bool.eq_false_or_eq_true (p x) with ht | hf
  · exact absurd (List.any_eq_true.mpr ⟨x, hx, ht⟩) (by simp [h])
  · exact hf

theorem builtRecord_username (eR pR : String → Bool) (n r : String) (a : Bool) :
    (UserStorage.builtRecord eR pR n r a).username = n := by
  simp only [UserStorage.builtRecord]
  split <;> split <;> rfl

theorem builtRecord_pswd (eR pR : String → Bool) (n r : String) (a : Bool) :
    (UserStorage.builtRecord eR pR n r a).pswd = "" := by
  simp only [UserStorage.builtRecord]
  split <;> split <;> rfl

theorem addedRecord_username (hashFn : String → String) (us : UserStorage)
    (u0 : UserData) (pw : String) :
    (UserStorage.addedRecord hashFn us u0 pw).username = u0.username := rfl

theorem addedRecord_pswd_pos (hashFn : String → String) (us : UserStorage)
    (u0 : UserData) {pw : String} (h : 0 < pw.length) :
    (UserStorage.addedRecord hashFn us u0 pw).pswd = hashFn pw := by
  simp only [UserStorage.addedRecord]
  rw [if_pos h]

theorem registered_lookup {hashFn : String → String} {eR pR : String → Bool}
    {us : UserStorage} {name pw role : String} {anon : Bool}
    {u : UserData} {st : UserStorage}
    (hadd : UserStorage.AddUserByNameAndPassword hashFn eR pR us name pw role anon
      = .ok (u, st)) :
    st.users.find? (fun v => matchesCI name v.username) = some u
      ∧ u.username = name := by
  obtain ⟨hdup, hu, hst⟩ :=
    AddNewUser_ok (by simpa [UserStorage.AddUserByNameAndPassword] using hadd)
  have hun : u.username = name := by
    rw [hu, addedRecord_username, builtRecord_username]
  refine ⟨?_, hun⟩
  subst hst
  rw [List.find?_append]
  have hnone : us.users.find? (fun v => matchesCI name v.username) = none := by
    rw [List.find?_eq_none]
    intro v hv
    have hdv := any_eq_false_mem hdup hv
    have h1 : (lowerStr v.username
        == lowerStr (UserStorage.addedRecord hashFn us
          (UserStorage.builtRecord eR pR name role anon) pw).username) = false := by
      simp only [UserStorage.duplicates, Bool.or_eq_false_iff] at hdv
      exact hdv.1.1
    rw [addedRecord_username, builtRecord_username] at h1
    simp [matchesCI, h1]
  rw [hnone, ← hu]
  simp [List.find?_cons, matchesCI, hun]

/-- C4.  `UserByNamePassword` fails with the single error value
`model.ErrUserNotFound` whether the name does not match or the password
comparison fails (the caller cannot distinguish the causes); on success
it returns the matching user with the password hash cleared.  A pair
registered through `AddUserByNameAndPassword` with a non-empty password
is found again by the same pair (given that the bcrypt comparison
accepts the hash it produced), and a wrong password yields the same
`model.ErrUserNotFound`. -/
theorem userByNamePassword_contract (hashFn : String → String)
    (hOK : String → String → Bool) (emailRe phoneRe : String → Bool)
    (us : UserStorage) (name pw wrongPw role : String) (anon : Bool) :
    (∀ e, us.UserByNamePassword hOK name pw = .error e → e = .errUserNotFound)
      ∧ (∀ v, us.UserByNamePassword hOK name pw = .ok v → v.pswd = "")
      ∧ (∀ u st,
          UserStorage.AddUserByNameAndPassword hashFn emailRe phoneRe us
              name pw role anon = .ok (u, st) →
          pw ≠ "" → hOK (hashFn pw) pw = true →
          st.UserByNamePassword hOK name pw = .ok { u with pswd := "" })
      ∧ (∀ u st,
          UserStorage.AddUserByNameAndPassword hashFn emailRe phoneRe us
              name pw role anon = .ok (u, st) →
          pw ≠ "" → hOK (hashFn pw) wrongPw = false →
          st.UserByNamePassword hOK name wrongPw = .error .errUserNotFound) := by
  refine ⟨?_, ?_, ?_, ?_⟩
  · intro e h
    unfold UserStorage.UserByNamePassword at h
    split at h
    · cases h; rfl
    · split at h
      · exact Except.noConfusion h
      · cases h; rfl
  · intro v h
    unfold UserStorage.UserByNamePassword at h
    split at h
    · exact Except.noConfusion h
    · split at h
      · cases h; rfl
      · exact Except.noConfusion h
  · intro u st hadd hpw hok
    obtain ⟨hfind, -⟩ := registered_lookup hadd
    have hpswd : u.pswd = hashFn pw := by
      obtain ⟨-, hu, -⟩ :=
        AddNewUser_ok (by simpa [UserStorage.AddUserByNameAndPassword] using hadd)
      rw [hu, addedRecord_pswd_pos _ _ _ (str_length_pos hpw)]
    unfold UserStorage.UserByNamePassword
    rw [hfind]
    simp [hpswd, hok]
  · intro u st hadd hpw hbad
    obtain ⟨hfind, -⟩ := registered_lookup hadd
    have hpswd : u.pswd = hashFn pw := by
      obtain ⟨-, hu, -⟩ :=
        AddNewUser_ok (by simpa [UserStorage.AddUserByNameAndPassword] using hadd)
      rw [hu, addedRecord_pswd_pos _ _ _ (str_length_pos hpw)]
    unfold UserStorage.UserByNamePassword
    rw [hfind]
    simp [hpswd, hbad]

/-- Concrete registration used by the C4 witness. -/
def c4res : Except StorageErr (UserData × UserStorage) :=
  UserStorage.AddUserByNameAndPassword demoHash (fun _ => false) (fun _ => false)
    UserStorage.empty "alice" "secret1" "admin" false

/-- The user returned by the C4 witness registration. -/
def c4user : UserData :=
  match c4res with
  | .ok (u, _) => u
  | .error _ => blankUser

/-- The storage state after the C4 witness registration. -/
def c4store : UserStorage :=
  match c4res with
  | .ok (_, st) => st
  | .error _ => UserStorage.empty

/-- C4, witness. -/
theorem userByNamePassword_witness :
    c4res = .ok (c4user, c4store)
      ∧ ("secret1" : String) ≠ ""
      ∧ demoHashOK (demoHash "secret1") "secret1" = true
      ∧ c4store.UserByNamePassword demoHashOK "alice" "secret1"
          = .ok { c4user with pswd := "" } :=
  ⟨rfl, by decide, by decide,
    (userByNamePassword_contract demoHash demoHashOK (fun _ => false) (fun _ => false)
        UserStorage.empty "alice" "secret1" "bad" "admin" false).2.2.1 c4user c4store
      rfl (by decide) (by decide)⟩

theorem containsCI_empty (h : String) : containsCI h "" = true := by
  simp only [containsCI]
  cases (lowerStr h).toList with
  | nil => rfl
  | cons c t => rfl

theorem fetchUsers_spec (us : UserStorage) (f : String) (skip limit : Nat) :
    ((us.FetchUsers f skip limit).2
        = (us.users.filter (fun u => containsCI u.username f)).length)
      ∧ List.Sorted UserStorage.byUsername (us.FetchUsers f skip limit).1
      ∧ (∀ u ∈ (us.FetchUsers f skip limit).1, containsCI u.username f = true)
      ∧ (limit ≠ 0 → (us.FetchUsers f skip limit).1.length
          = min limit
              ((us.users.filter (fun u => containsCI u.username f)).length - skip)) := by
  have hsorted :
      List.Sorted UserStorage.byUsername
        (List.insertionSort UserStorage.byUsername
          (us.users.filter (fun u => containsCI u.username f))) :=
    List.sorted_insertionSort UserStorage.byUsername _
  have hpage :
      (us.FetchUsers f skip limit).1
        = (if limit == 0 then
            (List.insertionSort UserStorage.byUsername
              (us.users.filter (fun u => containsCI u.username f))).drop skip
          else
            ((List.insertionSort UserStorage.byUsername
              (us.users.filter (fun u => containsCI u.username f))).drop skip).take limit) := rfl
  refine ⟨rfl, ?_, ?_, ?_⟩
  · rw [hpage]
    split
    · exact hsorted.sublist (List.drop_sublist _ _)
    · exact hsorted.sublist ((List.take_sublist _ _).trans (List.drop_sublist _ _))
  · intro u hu
    rw [hpage] at hu
    have hmem : u ∈ (us.users.filter (fun u => containsCI u.username f)) := by
      have hsortmem :
          u ∈ List.insertionSort UserStorage.byUsername
            (us.users.filter (fun u => containsCI u.username f)) := by
        split at hu
        · exact List.Sublist.mem hu (List.drop_sublist _ _)
        · exact List.Sublist.mem hu
            ((List.take_sublist _ _).trans (List.drop_sublist _ _))
      exact (List.perm_insertionSort UserStorage.byUsername _).mem_iff.mp hsortmem
    exact (List.mem_filter.mp hmem).2
  · intro hlim
    rw [hpage, if_neg (by simpa using hlim)]
    rw [List.length_take, List.length_drop, List.length_insertionSort]

/-- A user record with the given username and all other fields blank. -/
def mkU (n : String) : UserData := { blankUser with username := n }

/-- A store holding 25 users, for the specification's pagination example. -/
def store25 : UserStorage :=
  { users :=
      [mkU "u01", mkU "u02", mkU "u03", mkU "u04", mkU "u05",
       mkU "u06", mkU "u07", mkU "u08", mkU "u09", mkU "u10",
       mkU "u11", mkU "u12", mkU "u13", mkU "u14", mkU "u15",
       mkU "u16", mkU "u17", mkU "u18", mkU "u19", mkU "u20",
       mkU "u21", mkU "u22", mkU "u23", mkU "u24", mkU "u25"]
    nextID := 25 }

theorem store25_filter_all :
    store25.users.filter (fun u => containsCI u.username "") = store25.users :=
  List.filter_eq_self.mpr (fun a _ => containsCI_empty a.username)

/-- C5.  `FetchUsers` returns the total computed over the whole filtered
set (not the returned page); the page is ordered by username ascending;
every page member matches the case-insensitive filter; the page length
is `min limit (filteredTotal - skip)` for a non-zero limit.  On a store
of 25 users, `FetchUsers("",0,20)` returns 20 users with total 25 and
`FetchUsers("",20,20)` returns the remaining 5 with total 25. -/
theorem fetchUsers_total_page_order (us : UserStorage) (f : String)
    (skip limit : Nat) :
    ((us.FetchUsers f skip limit).2
        = (us.users.filter (fun u => containsCI u.username f)).length)
      ∧ List.Sorted UserStorage.byUsername (us.FetchUsers f skip limit).1
      ∧ (∀ u ∈ (us.FetchUsers f skip limit).1, containsCI u.username f = true)
      ∧ (limit ≠ 0 → (us.FetchUsers f skip limit).1.length
          = min limit
              ((us.users.filter (fun u => containsCI u.username f)).length - skip))
      ∧ (store25.FetchUsers "" 0 20).2 = 25
      ∧ (store25.FetchUsers "" 0 20).1.length = 20
      ∧ (store25.FetchUsers "" 20 20).2 = 25
      ∧ (store25.FetchUsers "" 20 20).1.length = 5 := by
  obtain ⟨h1, h2, h3, h4⟩ := fetchUsers_spec us f skip limit
  have t1 : (store25.FetchUsers "" 0 20).2 = 25 := by
    rw [(fetchUsers_spec store25 "" 0 20).1, store25_filter_all]
    rfl
  have l1 : (store25.FetchUsers "" 0 20).1.length = 20 := by
    rw [(fetchUsers_spec store25 "" 0 20).2.2.2 (by decide), store25_filter_all]
    rfl
  have t2 : (store25.FetchUsers "" 20 20).2 = 25 := by
    rw [(fetchUsers_spec store25 "" 20 20).1, store25_filter_all]
    rfl
  have l2 : (store25.FetchUsers "" 20 20).1.length = 5 := by
    rw [(fetchUsers_spec store25 "" 20 20).2.2.2 (by decide), store25_filter_all]
    rfl
  exact ⟨h1, h2, h3, h4, t1, l1, t2, l2⟩

/-- C5, witness. -/
theorem fetchUsers_witness :
    (20 : Nat) ≠ 0
      ∧ (store25.FetchUsers "" 20 20).1.length
          = min 20 ((store25.users.filter (fun u => containsCI u.username "")).length - 20) :=
  ⟨by decide,
    (fetchUsers_total_page_order store25 "" 20 20).2.2.2.1 (by decide)⟩

/-- C6.  `ImportJSON` processes the decoded records in order: each
record's inbound password-hash field is cleared before insertion and the
stored password hash is re-derived by `AddNewUser` from the remembered
inbound value (or left empty when that value was empty); the first
record whose `AddNewUser` call fails aborts the import with exactly that
error, for every possible remainder of the batch (so no record after the
failing one is imported). -/
theorem importRecords_clears_and_stops (hashFn : String → String)
    (us : UserStorage) (u : UserData) (rest : List UserData) :
    (∀ e, UserStorage.AddNewUser hashFn us (.mongo { u with pswd := "" }) u.pswd
          = .error e →
        UserStorage.ImportRecords hashFn us (u :: rest) = .error e)
      ∧ (∀ v us',
          UserStorage.AddNewUser hashFn us (.mongo { u with pswd := "" }) u.pswd
            = .ok (v, us') →
          UserStorage.ImportRecords hashFn us (u :: rest)
              = UserStorage.ImportRecords hashFn us' rest
            ∧ v.pswd = (if u.pswd.length > 0 then hashFn u.pswd else "")) := by
  constructor
  · intro e h
    simp [UserStorage.ImportRecords, h]
  · intro v us' h
    refine ⟨by simp [UserStorage.ImportRecords, h], ?_⟩
    obtain ⟨-, hv, -⟩ := AddNewUser_ok h
    rw [hv]
    rfl

/-- A store already holding the username the C6 witness tries to import. -/
def c6store : UserStorage := { users := [mkU "dup"], nextID := 1 }

/-- An import record whose username collides with `c6store`. -/
def c6rec : UserData := { blankUser with username := "dup", pswd := "oldhash" }

/-- C6, witness: the colliding record aborts the import with the
duplicate-user error even though further records follow. -/
theorem importRecords_witness :
    UserStorage.AddNewUser demoHash c6store (.mongo { c6rec with pswd := "" })
        c6rec.pswd = .error .errorUserExists
      ∧ UserStorage.ImportRecords demoHash c6store (c6rec :: [mkU "later"])
          = .error .errorUserExists :=
  ⟨rfl,
    (importRecords_clears_and_stops demoHash c6store c6rec [mkU "later"]).1
      .errorUserExists rfl⟩

theorem UpdateUser_ok {us : UserStorage} {userID : String} {r0 : UserData}
    {u' : UserData} {us' : UserStorage}
    (h : us.UpdateUser userID (.mongo r0) = .ok (u', us')) :
    isValidObjectID userID = true
      ∧ u' = { r0 with email := lowerStr r0.email, id := userID }
      ∧ us' = { us with
                users := us.users.map (fun v => if v.id == userID then u' else v) } := by
  unfold UserStorage.UpdateUser at h
  split at h
  next hvalid =>
    simp only at h
    split at h
    next hfound =>
      injection h with h
      injection h with h1 h2
      subst h1
      exact ⟨hvalid, rfl, h2.symm⟩
    next => exact Except.noConfusion h
  next => exact Except.noConfusion h

/-- C7, counterexample.  `UpdateUser` with a well-formed id that matches
no stored user fails with the MongoDB driver's no-document error
propagated unchanged, which is a different error value from
`model.ErrUserNotFound` (the admin `GetUser` handler distinguishes the
two, mapping only the latter to 404). -/
theorem updateUser_missing_not_model_notFound :
    UserStorage.UpdateUser UserStorage.empty "59fd884d8f6b180001f5b4e2"
        (.mongo blankUser) = .error .errNoDocuments
      ∧ StorageErr.errNoDocuments ≠ StorageErr.errUserNotFound :=
  ⟨rfl, by decide⟩

/-- C7, amended.  `UpdateUser(id, user)` replaces the stored record's
fields with the supplied entity's (with the email lowercased), while the
stored record keeps the ID given as the id argument — any ID inside the
supplied entity is ignored; it fails with `model.ErrorWrongDataFormat`
when the supplied entity is not the backend's concrete type, and with
the driver's no-document error (propagated unchanged, not the model's
NotFound value) when no user has that id. -/
theorem updateUser_replaces_preserving_id (us : UserStorage) (userID : String)
    (r0 : UserData) (tag : String) :
    (∀ u' us', us.UpdateUser userID (.mongo r0) = .ok (u', us') →
        u'.id = userID
          ∧ u' = { r0 with email := lowerStr r0.email, id := userID }
          ∧ us'.users = us.users.map (fun v => if v.id == userID then u' else v)
          ∧ (∀ v ∈ us'.users, v.id = userID → v = u'))
      ∧ (isValidObjectID userID = true →
          us.UpdateUser userID (.other tag) = .error .errorWrongDataFormat)
      ∧ (isValidObjectID userID = true →
          us.users.all (fun v => !(v.id == userID)) = true →
          us.UpdateUser userID (.mongo r0) = .error .errNoDocuments) := by
  refine ⟨?_, ?_, ?_⟩
  · intro u' us' h
    obtain ⟨-, hu, hst⟩ := UpdateUser_ok h
    refine ⟨by rw [hu], hu, by rw [hst], ?_⟩
    intro v hv hvid
    rw [hst] at hv
    simp only [List.mem_map] at hv
    obtain ⟨w, hw, hweq⟩ := hv
    rcases Bool.eq_false_or_eq_true (w.id == userID) with ht | hf
    · rw [ht] at hweq
      simp only [if_true] at hweq
      exact hweq.symm
    · rw [hf] at hweq
      simp only [Bool.false_eq_true, if_false] at hweq
      subst hweq
      rw [hvid] at hf
      simp at hf
  · intro hvalid
    unfold UserStorage.UpdateUser
    rw [if_pos hvalid]
  · intro hvalid hnone
    unfold UserStorage.UpdateUser
    rw [if_pos hvalid]
    have hany : (us.users.any fun v => v.id == userID) = false := by
      cases hh : (us.users.any fun v => v.id == userID) with
      | false => rfl
      | true =>
        obtain ⟨x, hx, hxt⟩ := List.any_eq_true.mp hh
        have hb := List.all_eq_true.mp hnone x hx
        simp [hxt] at hb
    simp only
    rw [if_neg (by simp [hany])]

/-- A one-user store targeted by the C7 witness update. -/
def c7store : UserStorage :=
  { users := [{ mkU "old" with id := "000000000000000000000000" }], nextID := 1 }

/-- The replacement entity of the C7 witness, carrying a different inner id. -/
def c7new : UserData :=
  { blankUser with id := "ffffffffffffffffffffffff", username := "new"
                   email := "New@X.com" }

/-- The C7 witness update call. -/
def c7res : Except StorageErr (UserData × UserStorage) :=
  UserStorage.UpdateUser c7store "000000000000000000000000" (.mongo c7new)

/-- The updated record of the C7 witness. -/
def c7user : UserData :=
  match c7res with
  | .ok (u, _) => u
  | .error _ => blankUser

/-- The storage state after the C7 witness update. -/
def c7after : UserStorage :=
  match c7res with
  | .ok (_, st) => st
  | .error _ => UserStorage.empty

/-- C7, witness: the stored record keeps the id argument, not the
entity's inner id. -/
theorem updateUser_witness :
    c7res = .ok (c7user, c7after)
      ∧ c7user.id = "000000000000000000000000" :=
  ⟨rfl,
    ((updateUser_replaces_preserving_id c7store "000000000000000000000000" c7new
        "tag").1 c7user c7after rfl).1⟩

/-- C9.  In the admin `UpdateUser` handler, when the inbound TFA enabled
flag equals the stored user's, the stored `TFAInfo` (flag and secret) is
copied over the inbound one before the storage update, so such an update
cannot change or clear the stored TFA secret; every other inbound field
is handed to the storage update unchanged (the storage itself then
lowercases the email and overwrites the id with the route id, as in the
storage `UpdateUser` contract). -/
theorem adminUpdateUser_preserves_tfa_secret (us : UserStorage)
    (userID : String) (inbound existing : UserData) (ret : UserData)
    (us' : UserStorage) :
    us.UserByID userID = .ok existing →
    inbound.tfaInfo.isEnabled = existing.tfaInfo.isEnabled →
    adminUpdateUser us userID inbound = .ok (ret, us') →
    ret.tfaInfo = existing.tfaInfo
      ∧ ret = { inbound with
                tfaInfo := existing.tfaInfo
                email := lowerStr inbound.email
                id := userID }
      ∧ (∀ v ∈ us'.users, v.id = userID →
          v.tfaInfo.secret = existing.tfaInfo.secret) := by
  intro hby htfa h
  unfold adminUpdateUser at h
  rw [hby] at h
  simp only at h
  have hcond : (inbound.tfaInfo.isEnabled == existing.tfaInfo.isEnabled) = true := by
    simp [htfa]
  rw [if_pos hcond] at h
  obtain ⟨-, hret, hst⟩ := UpdateUser_ok h
  have hr2 : ret = { inbound with
                     tfaInfo := existing.tfaInfo
                     email := lowerStr inbound.email
                     id := userID } := hret
  refine ⟨by rw [hr2], hr2, ?_⟩
  intro v hv hvid
  rw [hst] at hv
  simp only [List.mem_map] at hv
  obtain ⟨w, hw, hweq⟩ := hv
  rcases Bool.eq_false_or_eq_true (w.id == userID) with ht | hf
  · rw [ht] at hweq
    simp only [if_true] at hweq
    rw [← hweq, hr2]
  · rw [hf] at hweq
    simp only [Bool.false_eq_true, if_false] at hweq
    subst hweq
    rw [hvid] at hf
    simp at hf

/-- The stored user of the C9 witness: TFA disabled, with a secret on
file. -/
def c9stored : UserData :=
  { mkU "victim" with id := "000000000000000000000000"
                      tfaInfo := { isEnabled := false, secret := "topsecret" } }

/-- The C9 witness store. -/
def c9store : UserStorage := { users := [c9stored], nextID := 1 }

/-- The inbound update of the C9 witness: same TFA flag, empty secret. -/
def c9inbound : UserData :=
  { blankUser with username := "victim2"
                   tfaInfo := { isEnabled := false, secret := "" } }

/-- The C9 witness handler call. -/
def c9res : Except StorageErr (UserData × UserStorage) :=
  adminUpdateUser c9store "000000000000000000000000" c9inbound

/-- The record returned by the C9 witness call. -/
def c9ret : UserData :=
  match c9res with
  | .ok (u, _) => u
  | .error _ => blankUser

/-- The state after the C9 witness call. -/
def c9after : UserStorage :=
  match c9res with
  | .ok (_, st) => st
  | .error _ => UserStorage.empty

/-- C9, witness: the update that does not toggle TFA keeps the stored
secret. -/
theorem adminUpdateUser_witness :
    c9res = .ok (c9ret, c9after)
      ∧ c9ret.tfaInfo = c9stored.tfaInfo :=
  ⟨rfl,
    (adminUpdateUser_preserves_tfa_secret c9store "000000000000000000000000"
        c9inbound c9stored c9ret c9after rfl rfl rfl).1⟩

/-- The invariant: every stored email is a lowercased string. -/
def emailsLower (us : UserStorage) : Prop :=
  ∀ v ∈ us.users, ∃ s, v.email = lowerStr s

/-- C10.  `AddNewUser` and `UpdateUser` lowercase the record's email
before storing it, `UserByEmail` lowercases its argument before lookup
(so emails differing only in case are interchangeable as lookup keys),
and both write operations preserve the invariant that every stored email
is lowercase. -/
theorem email_lowercasing_invariant (hashFn : String → String)
    (us : UserStorage) (u0 r0 : UserData) (pw userID : String) :
    (∀ u' us', UserStorage.AddNewUser hashFn us (.mongo u0) pw = .ok (u', us') →
        u'.email = lowerStr u0.email ∧ us'.users = us.users ++ [u'])
      ∧ (∀ u' us', us.UpdateUser userID (.mongo r0) = .ok (u', us') →
          u'.email = lowerStr r0.email)
      ∧ (∀ e1 e2 : String, e1 ≠ "" → e2 ≠ "" → lowerStr e1 = lowerStr e2 →
          us.UserByEmail e1 = us.UserByEmail e2)
      ∧ (emailsLower us →
          ∀ u' us', UserStorage.AddNewUser hashFn us (.mongo u0) pw = .ok (u', us') →
          emailsLower us')
      ∧ (emailsLower us →
          ∀ u' us', us.UpdateUser userID (.mongo r0) = .ok (u', us') →
          emailsLower us') := by
  refine ⟨?_, ?_, ?_, ?_, ?_⟩
  · intro u' us' h
    obtain ⟨-, hu, hst⟩ := AddNewUser_ok h
    exact ⟨by rw [hu]; rfl, by rw [hst, hu]⟩
  · intro u' us' h
    obtain ⟨-, hu, -⟩ := UpdateUser_ok h
    rw [hu]
  · intro e1 e2 h1 h2 hl
    unfold UserStorage.UserByEmail
    rw [if_neg (by simp [h1]), if_neg (by simp [h2]), hl]
  · intro hinv u' us' h
    obtain ⟨-, hu, hst⟩ := AddNewUser_ok h
    intro v hv
    rw [hst] at hv
    simp only [List.mem_append, List.mem_singleton] at hv
    rcases hv with hv | hv
    · exact hinv v hv
    · exact ⟨u0.email, by rw [hv]; rfl⟩
  · intro hinv u' us' h
    obtain ⟨-, hu, hst⟩ := UpdateUser_ok h
    intro v hv
    rw [hst] at hv
    simp only [List.mem_map] at hv
    obtain ⟨w, hw, hweq⟩ := hv
    rcases Bool.eq_false_or_eq_true (w.id == userID) with ht | hf
    · rw [ht] at hweq
      simp only [if_true] at hweq
      exact ⟨r0.email, by rw [← hweq, hu]⟩
    · rw [hf] at hweq
      simp only [Bool.false_eq_true, if_false] at hweq
      rw [← hweq]
      exact hinv w hw

/-- The C10 witness registration: a mixed-case email. -/
def c10res : Except StorageErr (UserData × UserStorage) :=
  UserStorage.AddNewUser demoHash UserStorage.empty
    (.mongo { blankUser with username := "bob", email := "Bob@X.Com" }) "pw"

/-- The user stored by the C10 witness registration. -/
def c10user : UserData :=
  match c10res with
  | .ok (u, _) => u
  | .error _ => blankUser

/-- The state after the C10 witness registration. -/
def c10after : UserStorage :=
  match c10res with
  | .ok (_, st) => st
  | .error _ => UserStorage.empty

/-- C10, witness: the stored email is the lowercased inbound email. -/
theorem email_lowercasing_witness :
    c10res = .ok (c10user, c10after)
      ∧ c10user.email = lowerStr "Bob@X.Com"
      ∧ lowerStr "Bob@X.Com" = "bob@x.com" :=
  ⟨rfl,
    ((email_lowercasing_invariant demoHash UserStorage.empty
        { blankUser with username := "bob", email := "Bob@X.Com" } blankUser
        "pw" "000000000000000000000000").1 c10user c10after rfl).1,
    by decide⟩
